import Mathlib

/-!
Verification development for the ESPN_Extractor repository.

Shallow embedding of `bot_daily_analysis.py` (configuration loading and the
advice rule engine: start/sit, trades, free agents) and of
`espn_extractor/league_history.py` (multi-season history extraction with an
offline fixture), together with theorems settling the specification claims.

Numbers: Python floats are modelled as exact rationals.  To keep every
definition kernel-executable we use a small rational type `Q` (an integer
numerator over a positive denominator, not normalised) whose order is mapped
into Mathlib's `ℚ` for the order-theoretic lemmas.
-/

/-- Exact rational: numerator `n` over denominator `dpred + 1`.  Values are
not normalised; ordering and arithmetic agree with `ℚ` via `Q.toRat`. -/
structure Q where
  n : Int
  dpred : Nat
deriving DecidableEq

/-- The (always positive) denominator. -/
def Q.den (q : Q) : Nat := q.dpred + 1

/-- Build `n / d` for an intended positive `d`. -/
def Q.mk' (n : Int) (d : Nat) : Q := ⟨n, d - 1⟩

/-- Integer-valued rational. -/
def qInt (n : Int) : Q := ⟨n, 0⟩

/-- A value with one decimal digit: `n / 10`. -/
def qTen (n : Int) : Q := ⟨n, 9⟩

/-- A value with two decimal digits: `n / 100`. -/
def qHun (n : Int) : Q := ⟨n, 99⟩

/-- Addition on `Q` by cross multiplication (no normalisation). -/
def Q.add (a b : Q) : Q := Q.mk' (a.n * b.den + b.n * a.den) (a.den * b.den)

/-- Subtraction on `Q` by cross multiplication (no normalisation). -/
def Q.sub (a b : Q) : Q := Q.mk' (a.n * b.den - b.n * a.den) (a.den * b.den)

/-- Decidable order on `Q` by cross multiplication: `a ≤ b`. -/
def Q.ble (a b : Q) : Bool := a.n * (b.den : Int) ≤ b.n * (a.den : Int)

/-- Decidable strict order on `Q` by cross multiplication: `a < b`. -/
def Q.blt (a b : Q) : Bool := a.n * (b.den : Int) < b.n * (a.den : Int)

/-- Semantics of `Q` in `ℚ`. -/
def Q.toRat (q : Q) : ℚ := (q.n : ℚ) / (q.den : ℚ)

/-- Models Python's `round(x, 2)`: round to the nearest hundredth, ties to the
even hundredth (banker's rounding), computed exactly on rationals. -/
def pyRound2 (q : Q) : Q :=
  let d : Int := (q.den : Int)
  let n100 : Int := q.n * 100
  let f : Int := Int.fdiv n100 d
  let r : Int := n100 - f * d
  let i : Int :=
    if 2 * r < d then f
    else if d < 2 * r then f + 1
    else if f % 2 = 0 then f else f + 1
  ⟨i, 99⟩

/-- ASCII lowercase/uppercase pairs, the case table behind `str.upper()`
as exercised by this program (all position codes are ASCII). -/
def upperTable : List (Char × Char) :=
  [('a', 'A'), ('b', 'B'), ('c', 'C'), ('d', 'D'), ('e', 'E'), ('f', 'F'),
   ('g', 'G'), ('h', 'H'), ('i', 'I'), ('j', 'J'), ('k', 'K'), ('l', 'L'),
   ('m', 'M'), ('n', 'N'), ('o', 'O'), ('p', 'P'), ('q', 'Q'), ('r', 'R'),
   ('s', 'S'), ('t', 'T'), ('u', 'U'), ('v', 'V'), ('w', 'W'), ('x', 'X'),
   ('y', 'Y'), ('z', 'Z')]

/-- Uppercase one character (ASCII scope of Python's `str.upper`). -/
def pyCharUpper (c : Char) : Char := ((upperTable.lookup c).getD c)

/-- Models Python's `str.upper()` on the ASCII strings this program handles. -/
def pyUpper (s : String) : String := ⟨s.data.map pyCharUpper⟩

/-- Python `str(x)` of an optional string: `None` renders as `"None"`. -/
def pyShowOptStr : Option String → String
  | some s => s
  | none => "None"

/-- Python rendering of an optional integer (used only inside advice text). -/
def pyShowOptInt : Option Int → String
  | some z => toString z
  | none => "None"

/-- Whitespace characters stripped by Python's `str.strip()`. -/
def pyIsSpace (c : Char) : Bool := c = ' ' ∨ c = '\t' ∨ c = '\n' ∨ c = '\r'

/-- Models Python's `str.strip()` on a character list. -/
def pyStripChars (l : List Char) : List Char :=
  ((l.dropWhile pyIsSpace).reverse.dropWhile pyIsSpace).reverse

/-- Decimal value of a digit list (assumed all digits). -/
def digitsToNat (l : List Char) : Nat :=
  l.foldl (fun a c => a * 10 + (c.toNat - 48)) 0

/-- Parse a (stripped, unsigned) decimal integer literal. -/
def parseUnsignedInt (l : List Char) : Option Nat :=
  if l ≠ [] ∧ l.all Char.isDigit then some (digitsToNat l) else none

/-- Models Python's `int(s)` on strings: strip, optional sign, decimal digits.
(Underscore separators and non-decimal bases are outside this model's scope;
the program only feeds it plain decimal configuration values.) -/
def parseIntStr (s : String) : Option Int :=
  match pyStripChars s.data with
  | '+' :: rest => (parseUnsignedInt rest).map Int.ofNat
  | '-' :: rest => (parseUnsignedInt rest).map (fun v => -(Int.ofNat v))
  | rest => (parseUnsignedInt rest).map Int.ofNat

/-- Parse an unsigned decimal float literal: `digits`, `digits.`, `digits.digits`
or `.digits`, returning the exact rational. -/
def parseUnsignedFloat (l : List Char) : Option Q :=
  let ip := l.takeWhile Char.isDigit
  match l.drop ip.length with
  | [] => if ip ≠ [] then some (qInt (Int.ofNat (digitsToNat ip))) else none
  | '.' :: fp =>
      if (ip ≠ [] ∨ fp ≠ []) ∧ fp.all Char.isDigit then
        some (Q.mk' (Int.ofNat (digitsToNat ip * 10 ^ fp.length + digitsToNat fp))
          (10 ^ fp.length))
      else none
  | _ => none

/-- Models Python's `float(s)` on strings: strip, optional sign, decimal form.
(Exponents, `inf` and `nan` are outside this model's scope; the program only
feeds it plain decimal threshold values.) -/
def parseFloatQ (s : String) : Option Q :=
  match pyStripChars s.data with
  | '+' :: rest => parseUnsignedFloat rest
  | '-' :: rest => (parseUnsignedFloat rest).map (fun q => ⟨-q.n, q.dpred⟩)
  | rest => parseUnsignedFloat rest

/-!
Data model: snapshot records supplied by the `espn_api` provider.
-/

/-- A lineup entry as consumed by the analysis code: only the attributes the
program reads.  `projected_points` is optional, mirroring
`getattr(p, "projected_points", 0) or 0`; `eligibleSlots` entries are already
stringified (the code applies `str` to each slot). -/
structure Player where
  name : String
  position : Option String
  slot_position : String
  projected_points : Option Q
  eligibleSlots : List String
  percent_owned : Option Int
deriving DecidableEq

/-- A fantasy team (the attributes the analysis code reads). -/
structure Team where
  team_id : Int
  team_name : String
deriving DecidableEq

/-- A box score: the paired lineups of one matchup. -/
structure BoxScore where
  home_team : Team
  away_team : Team
  home_lineup : List Player
  away_lineup : List Player

/-- A league snapshot: `boxScores none` is the current week's list (the
library's `box_scores()` default), `boxScores (some w)` the list for week `w`;
`freeAgents size pos` may raise (`Except.error`), mirroring the `try/except`
around `league.free_agents`. -/
structure League where
  teams : List Team
  boxScores : Option Int → List BoxScore
  freeAgents : Int → String → Except Unit (List Player)

/-- The `Config` dataclass of `bot_daily_analysis.py`. -/
structure Config where
  league_id : Int
  season_year : Int
  scoring_period : Option Int
  my_team_id : Option Int
  espn_s2 : Option String
  swid : Option String
  out_dir : String
  write_xlsx : Bool
  xlsx_path : String
  start_sit_threshold : Q
  per_pos_thresholds : List (String × Q)
  lock_positions : List String
  free_agent_pool_size : Int
  positions : List String
  projection_mode : String

/-- A start/sit advice dict: `tag` models the `"type"` key. -/
structure StartSitRec where
  tag : String
  bench_in : String
  bench_pos : Option String
  starter_out : String
  starter_pos : Option String
  proj_delta : Q
  threshold_used : Q
deriving DecidableEq

/-- A free-agent (add) advice dict: `tag` models the `"type"` key. -/
structure AddRec where
  tag : String
  player : String
  proj_points : Q
  why : String
deriving DecidableEq

/-- A trade advice dict: `tag` models the `"type"` key. -/
structure TradeRec where
  tag : String
  trade_with_team : String
  send_player : String
  receive_player : String
  rationale : String
deriving DecidableEq

/-- An advice item: one of the three dict shapes the program emits. -/
inductive Advice where
  | startSit (r : StartSitRec)
  | add (r : AddRec)
  | trade (r : TradeRec)
deriving DecidableEq

/-- The `"type"` value carried by an advice item. -/
def Advice.tag : Advice → String
  | .startSit r => r.tag
  | .add r => r.tag
  | .trade r => r.tag

/-!
Analysis functions of `bot_daily_analysis.py`.
-/

/-- `_norm_pos`: falsy input (`None` / `""`) is returned unchanged, the
`DST`/`D/ST` aliases collapse to `D/ST`, everything else is uppercased. -/
def _norm_pos (pos : Option String) : Option String :=
  match pos with
  | none => none
  | some s =>
      if s = "" then some s
      else
        let up := pyUpper s
        if up = "DST" ∨ up = "D/ST" then some "D/ST" else some up

/-- The box-score list consulted for a given week:
`league.box_scores(week) if week else league.box_scores()` (Python truthiness:
`None` and `0` both fall back to the current week). -/
def bsListFor (l : League) (week : Option Int) : List BoxScore :=
  match week with
  | none => l.boxScores none
  | some w => if w = 0 then l.boxScores none else l.boxScores (some w)

/-- Slot test for the bench partition: slot position `BE` or `IR`. -/
def isBenchSlot (p : Player) : Bool :=
  p.slot_position = "BE" ∨ p.slot_position = "IR"

/-- The first box score involving the given team, if any. -/
def teamBoxScore (l : League) (team_id : Int) (week : Option Int) : Option BoxScore :=
  (bsListFor l week).find?
    (fun b => b.home_team.team_id = team_id ∨ b.away_team.team_id = team_id)

/-- The lineup of the given team's side of a box score. -/
def sideLineup (bs : BoxScore) (team_id : Int) : List Player :=
  if bs.home_team.team_id = team_id then bs.home_lineup else bs.away_lineup

/-- `_lineup_for_team`: split the team's box-score lineup into
(starters, bench); `([], [])` when the team has no box score. -/
def _lineup_for_team (l : League) (team_id : Int) (week : Option Int) :
    List Player × List Player :=
  match teamBoxScore l team_id week with
  | none => ([], [])
  | some bs =>
      let lineup := sideLineup bs team_id
      (lineup.filter (fun p => !(isBenchSlot p)), lineup.filter isBenchSlot)

/-- `float(getattr(p, "projected_points", 0) or 0)`. -/
def effProj (p : Player) : Q := p.projected_points.getD (qInt 0)

/-- `_threshold_for`: the per-position threshold for the normalised position,
falling back to the global `start_sit_threshold`. -/
def _threshold_for (pos : Option String) (cfg : Config) : Q :=
  let posn := (_norm_pos pos).getD ""
  (cfg.per_pos_thresholds.lookup posn).getD cfg.start_sit_threshold

/-- The configured lock set: each lock position, normalised. -/
def lockset (cfg : Config) : List (Option String) :=
  cfg.lock_positions.map (fun p => _norm_pos (some p))

/-- Bench eligibility for a given starter position: the bench player's
normalised position must not be locked, and either the starter's position
appears among the bench player's eligibility slots or the two normalised
positions coincide. -/
def eligibleForStarter (ls : List (Option String)) (starter_pos : Option String)
    (b : Player) : Bool :=
  let bpos := _norm_pos b.position
  if ls.contains bpos then false
  else
    (match starter_pos with
     | some sp => b.eligibleSlots.contains sp
     | none => false) || bpos == starter_pos

/-- Python's `max(x :: rest, key=projected points)`: scan keeping the current
element unless a strictly larger projection appears (so the first maximum
wins). -/
def pyMaxByProj (x : Player) (rest : List Player) : Player :=
  rest.foldl (fun best p => if Q.blt (effProj best) (effProj p) then p else best) x

/-- The start/sit advice dict. -/
def mkStartSitRec (starter best : Player) (delta thresh : Q) : Advice :=
  .startSit ⟨"start_sit", best.name, best.position, starter.name,
    starter.position, delta, thresh⟩

/-- `recommend_start_sit`: for each unlocked starter, find the eligible bench
players, take the one with the highest projection, and recommend a swap when
`round(bench - starter, 2)` meets the position's threshold. -/
def recommend_start_sit (l : League) (cfg : Config) : List Advice :=
  match cfg.my_team_id with
  | none => []
  | some tid =>
      let sb := _lineup_for_team l tid cfg.scoring_period
      let ls := lockset cfg
      sb.1.foldl (fun advice starter =>
        let starter_pos := _norm_pos starter.position
        if ls.contains starter_pos then advice
        else
          let start_proj := effProj starter
          let eligible_bench := sb.2.filter (eligibleForStarter ls starter_pos)
          match eligible_bench with
          | [] => advice
          | b :: bs =>
              let best_bench := pyMaxByProj b bs
              let delta := pyRound2 (Q.sub (effProj best_bench) start_proj)
              let thresh := _threshold_for starter_pos cfg
              if Q.ble thresh delta then
                advice ++ [mkStartSitRec starter best_bench delta thresh]
              else advice) []

/-- The first element whose projection no element exceeds (the declarative
"pick the eligible bench player with the highest projected points"). -/
def firstMaxByProj (l : List Player) : Option Player :=
  l.find? (fun b => l.all (fun c => ! Q.blt (effProj b) (effProj c)))

/-- Declarative per-starter start/sit rule, as the code implements it: skip
locked starters, filter the bench by `eligibleForStarter` (which also excludes
lock-listed bench players), take the highest-projection eligible bench player,
and emit exactly when `round(bench - starter, 2) ≥ threshold(position)`. -/
def start_sit_spec (ls : List (Option String)) (bench : List Player)
    (cfg : Config) (starter : Player) : Option Advice :=
  let starter_pos := _norm_pos starter.position
  if ls.contains starter_pos then none
  else
    let eligible_bench := bench.filter (eligibleForStarter ls starter_pos)
    match firstMaxByProj eligible_bench with
    | none => none
    | some best =>
        let delta := pyRound2 (Q.sub (effProj best) (effProj starter))
        let thresh := _threshold_for starter_pos cfg
        if Q.ble thresh delta then some (mkStartSitRec starter best delta thresh)
        else none

/-- Per-starter start/sit rule following the claim's words literally (for the
refutation): eligibility ignores the lock set on bench players, and the
emission test compares the raw difference `bench - starter` (no rounding)
against the threshold. -/
def claim_start_sit_spec (ls : List (Option String)) (bench : List Player)
    (cfg : Config) (starter : Player) : Option Advice :=
  let starter_pos := _norm_pos starter.position
  if ls.contains starter_pos then none
  else
    let eligible_bench := bench.filter (fun b =>
      (match starter_pos with
       | some sp => b.eligibleSlots.contains sp
       | none => false) || _norm_pos b.position == starter_pos)
    match firstMaxByProj eligible_bench with
    | none => none
    | some best =>
        let delta := Q.sub (effProj best) (effProj starter)
        let thresh := _threshold_for starter_pos cfg
        if Q.ble thresh delta then some (mkStartSitRec starter best delta thresh)
        else none

/-- `_team_strength_by_pos`, read at one position: the dict maps a normalised
position to the sum of the team's starters' projections at that position, and
`strength.get(pos, 0.0)` is `0` for absent keys — which is exactly this sum. -/
def _team_strength_by_pos (l : League) (team_id : Int) (week : Option Int)
    (pos : Option String) : Q :=
  ((_lineup_for_team l team_id week).1.filter
    (fun p => _norm_pos p.position == pos)).foldl (fun a p => Q.add a (effProj p))
    (qInt 0)

/-- The positions scanned by the trade rule. -/
def tradePositions : List String := ["RB", "WR", "QB", "TE"]

/-- The trade advice dict (the rationale mirrors the f-string). -/
def mkTradeRec (opp : Team) (send recv : Player) (gp np : Option String) : Advice :=
  .trade ⟨"trade", opp.team_name,
    send.name ++ " (" ++ pyShowOptStr send.position ++ ")",
    recv.name ++ " (" ++ pyShowOptStr recv.position ++ ")",
    "Surplus at " ++ pyShowOptStr gp ++ " for us vs. " ++ opp.team_name ++
      "; they’re deeper at " ++ pyShowOptStr np ++ "."⟩

/-- `recommend_trades`: for every opponent and ordered pair of distinct
unlocked positions, when our starter strength exceeds theirs by more than 8.0
at the give position and theirs exceeds ours by more than 8.0 at the need
position, propose swapping the first matching bench assets (when both exist);
at most 5 suggestions are returned. -/
def recommend_trades (l : League) (cfg : Config) : List Advice :=
  match cfg.my_team_id with
  | none => []
  | some tid =>
      let ls := lockset cfg
      let my_bench := (_lineup_for_team l tid cfg.scoring_period).2
      let bench_assets :=
        my_bench.filter (fun p => ! ls.contains (_norm_pos p.position))
      let recs := (l.teams.filter (fun o => ! (o.team_id == tid))).flatMap
        (fun opp =>
          tradePositions.flatMap (fun give_pos =>
            let gp := _norm_pos (some give_pos)
            if ls.contains gp then []
            else if Q.blt
                (Q.add (_team_strength_by_pos l opp.team_id cfg.scoring_period gp)
                  (qInt 8))
                (_team_strength_by_pos l tid cfg.scoring_period gp) then
              tradePositions.flatMap (fun need_pos =>
                let np := _norm_pos (some need_pos)
                if np == gp || ls.contains np then []
                else if Q.blt
                    (Q.add (_team_strength_by_pos l tid cfg.scoring_period np)
                      (qInt 8))
                    (_team_strength_by_pos l opp.team_id cfg.scoring_period np)
                  then
                  let opp_bench := (_lineup_for_team l opp.team_id cfg.scoring_period).2
                  match bench_assets.find? (fun p => _norm_pos p.position == gp),
                      opp_bench.find? (fun p => _norm_pos p.position == np) with
                  | some send, some recv => [mkTradeRec opp send recv gp np]
                  | _, _ => []
                else [])
            else []))
      recs.take 5

/-- The fixed position list of the free-agent rule. -/
def faPositions : List String := ["RB", "WR", "TE", "QB", "D/ST", "K"]

/-- Descending-projection order used by
`sorted(fas, key=projected points, reverse=True)`. -/
def ProjGe (a b : Player) : Prop := Q.ble (effProj b) (effProj a) = true

instance : DecidableRel ProjGe := fun _ _ => instDecidableEqBool _ _

/-- The stable descending sort of a free-agent pool by projected points
(Python's `sorted` is stable; any stable sort realises the same list). -/
def sortFaDesc (l : List Player) : List Player := l.insertionSort ProjGe

/-- The add advice dict (the `why` text mirrors the f-string). -/
def mkAddRec (pos : String) (p : Player) : Advice :=
  .add ⟨"add", p.name ++ " (" ++ pyShowOptStr p.position ++ ")",
    pyRound2 (effProj p),
    "Top available " ++ pos ++ " by projections; " ++
      pyShowOptInt p.percent_owned ++ "% rostered."⟩

/-- One position's block of add suggestions: skipped when the position is
locked or the free-agent query raises, otherwise the top 5 of the pool by
descending projection. -/
def faBlock (l : League) (cfg : Config) (pos : String) : List Advice :=
  if (lockset cfg).contains (_norm_pos (some pos)) then []
  else
    match l.freeAgents cfg.free_agent_pool_size pos with
    | .error _ => []
    | .ok fas => ((sortFaDesc fas).take 5).map (mkAddRec pos)

/-- `free_agent_targets`: per-position blocks over the fixed position list,
capped at 10 suggestions in total. -/
def free_agent_targets (l : League) (cfg : Config) : List Advice :=
  (faPositions.flatMap (faBlock l cfg)).take 10

/-- The combined advice list built by `main`: start/sit, then adds, then
trades. -/
def combined_advice (l : League) (cfg : Config) : List Advice :=
  recommend_start_sit l cfg ++ free_agent_targets l cfg ++ recommend_trades l cfg

/-!
League history extraction (`espn_extractor/league_history.py`).
-/

/-- One output row of the history file (the dict yielded per team). -/
structure TeamHistory where
  owner : String
  year : Int
  team_name : String
  win : Int
  loss : Int
  draws : Int
  final_standing : Int
  points_for : Q
  points_against : Q
  acquisitions : Int
  trades : Int
  drops : Int
  streak_length : Int
  streak_type : String
  playoff_seed : Int
deriving DecidableEq

/-- A team record as fetched from the provider for one season (the attributes
`_iter_production_rows` reads; the cross-version `getattr` probing of
`_resolve_owner`/`_resolve_team_name` is flattened into single fields). -/
structure HistTeam where
  owner : String
  team_name : String
  wins : Int
  losses : Int
  ties : Int
  final_standing : Int
  points_for : Q
  points_against : Q
  acquisitions : Int
  trades : Int
  drops : Int
  streak_length : Int
  streak_type : String
  playoff_seed : Int
deriving DecidableEq

/-- The row yielded for one team of one season. -/
def historyRow (y : Int) (t : HistTeam) : TeamHistory :=
  ⟨t.owner, y, t.team_name, t.wins, t.losses, t.ties, t.final_standing,
    t.points_for, t.points_against, t.acquisitions, t.trades, t.drops,
    t.streak_length, t.streak_type, t.playoff_seed⟩

/-- `_SAMPLE_HISTORY_2018`: the fixed offline fixture (10 rows). -/
def _SAMPLE_HISTORY_2018 : List TeamHistory :=
  [⟨"jessie marshall", 2018, "Team 1", 10, 3, 0, 4, qHun 127688, qHun 103822,
      21, 1, 22, 1, "WIN", 2⟩,
    ⟨"Bailey Zambuto", 2018, "Team 2", 6, 7, 0, 6, qTen 10196, qHun 102858,
      0, 0, 0, 1, "LOSS", 6⟩,
    ⟨"Jhonatan De la Cruz", 2018, "FANTASY GOD", 2, 11, 0, 7, qHun 88418,
      qHun 115184, 1, 0, 1, 3, "LOSS", 10⟩,
    ⟨"Leon Law", 2018, "THE KING", 8, 5, 0, 2, qHun 105888, qHun 107506,
      0, 0, 0, 3, "WIN", 4⟩,
    ⟨"Eddie Rivera", 2018, "Team 5", 4, 9, 0, 10, qHun 100694, qTen 11495,
      0, 0, 0, 1, "WIN", 9⟩,
    ⟨"Tresa Omara", 2018, "Team Viking Queen", 5, 8, 0, 5, qHun 113974,
      qHun 125262, 41, 0, 41, 1, "LOSS", 8⟩,
    ⟨"james czarnowski", 2018, "Team 7", 10, 3, 0, 3, qTen 13448, qTen 10719,
      16, 1, 15, 4, "WIN", 1⟩,
    ⟨"Michael Dungo", 2018, "Team 8", 9, 4, 0, 1, qHun 140272, qHun 119154,
      30, 0, 30, 1, "LOSS", 3⟩,
    ⟨"Lisa Mizrachi", 2018, "Team Mizrachi", 6, 7, 0, 8, qHun 107094,
      qTen 12812, 0, 0, 0, 1, "WIN", 5⟩,
    ⟨"Wes Harris", 2018, "Team 10", 5, 8, 0, 9, qHun 127892, qHun 124314,
      21, 0, 21, 2, "LOSS", 7⟩]

/-- `_HEADERS`: the fixed header row. -/
def _HEADERS : List String :=
  ["owner", "year", "team_name", "win", "loss", "draws", "final_standing",
   "points_for", "points_against", "acquisitions", "trades", "drops",
   "streak_length", "streak_type", "playoff_seed"]

/-- The `_ConfigLike` dataclass of `league_history.py`. -/
structure ConfigLike where
  league_id : Int
  start_year : Int
  end_year : Int
  out_file : String
  delimiter : String := ","
  espn_s2 : Option String := none
  swid : Option String := none
  debug : Bool := false
deriving DecidableEq

/-- The written history file, modelled at the record level: the header row is
always emitted first by `DictWriter.writeheader`, then one row per record, all
rendered with the given field delimiter. -/
structure WrittenFile where
  path : String
  delimiter : String
  header : List String
  records : List TeamHistory
deriving DecidableEq

/-- `_write_rows`: header first, then the data rows. -/
def _write_rows (path delim : String) (rows : List TeamHistory) : WrittenFile :=
  ⟨path, delim, _HEADERS, rows⟩

/-- `_write_offline_fixture`: the deterministic sample rows. -/
def _write_offline_fixture (cfg : ConfigLike) : WrittenFile :=
  _write_rows cfg.out_file cfg.delimiter _SAMPLE_HISTORY_2018

/-- Python's `range(start_year, end_year + 1)`. -/
def yearRange (startY endY : Int) : List Int :=
  (List.range (endY + 1 - startY).toNat).map (fun i => startY + (i : Int))

/-- `_iter_production_rows`: one provider fetch per season; a season whose
fetch raises is logged and skipped (contributes no rows), every other season
still yields one row per team. -/
def _iter_production_rows (fetch : Int → Except String (List HistTeam))
    (cfg : ConfigLike) : List TeamHistory :=
  (yearRange cfg.start_year cfg.end_year).flatMap (fun y =>
    match fetch y with
    | .error _ => []
    | .ok teams => teams.map (historyRow y))

/-- `extract_team_records`: normalise the output path and delimiter (an empty
`out_file` falls back to the legacy `output_dir`/`history_file` attributes,
which the `_ConfigLike` dataclass does not carry, so `getattr` defaults make
the joined path `league_history.csv`; an empty delimiter falls back through
the absent `format` attribute to `","`), then write either the offline
fixture (`test_mode`) or the production rows — always including the header. -/
def extract_team_records (fetch : Int → Except String (List HistTeam))
    (cfg : ConfigLike) (test_mode : Bool) : WrittenFile :=
  let out_file := if cfg.out_file = "" then "league_history.csv" else cfg.out_file
  let delim := if cfg.delimiter = "" then "," else cfg.delimiter
  if test_mode then _write_offline_fixture {cfg with out_file, delimiter := delim}
  else _write_rows out_file delim
    (_iter_production_rows fetch {cfg with out_file, delimiter := delim})

/-!
Configuration loading (`load_config` over a parsed TOML value tree).
-/

/-- A parsed TOML value as `tomllib` produces it (tables are insertion-ordered
key/value lists with distinct keys; dates are not used by this program). -/
inductive Toml where
  | int (n : Int)
  | float (q : Q)
  | str (s : String)
  | bool (b : Bool)
  | list (xs : List Toml)
  | table (kvs : List (String × Toml))

/-- Python truthiness of a TOML value. -/
def truthy : Toml → Bool
  | .int n => n ≠ 0
  | .float q => q.n ≠ 0
  | .str s => s ≠ ""
  | .bool b => b
  | .list xs => !xs.isEmpty
  | .table kvs => !kvs.isEmpty

/-- A placeholder rendering of a rational (Python's shortest-roundtrip float
repr is abstracted; no claim depends on this text). -/
def pyShowQ (q : Q) : String := toString q.n ++ "/" ++ toString q.den

/-- Python `str(x)` of a TOML value (composite values are abstracted; no claim
depends on that text). -/
def pyStrOf : Toml → String
  | .str s => s
  | .int n => toString n
  | .bool b => if b then "True" else "False"
  | .float q => pyShowQ q
  | .list _ => "<list>"
  | .table _ => "<dict>"

/-- `d[k]`: `KeyError` when the key is absent, `TypeError` when the value is
not a table. -/
def subscriptKey (t : Toml) (k : String) : Except String Toml :=
  match t with
  | .table kvs =>
      match kvs.lookup k with
      | some v => .ok v
      | none => .error ("KeyError: " ++ k)
  | _ => .error "TypeError: value is not subscriptable"

/-- `d.get(k, dflt)`: `AttributeError` when the value is not a table. -/
def tableGet (t : Toml) (k : String) (dflt : Toml) : Except String Toml :=
  match t with
  | .table kvs => .ok ((kvs.lookup k).getD dflt)
  | _ => .error "AttributeError: no attribute get"

/-- `d.get(k)` (default `None`): `AttributeError` when not a table. -/
def tableGetOpt (t : Toml) (k : String) : Except String (Option Toml) :=
  match t with
  | .table kvs => .ok (kvs.lookup k)
  | _ => .error "AttributeError: no attribute get"

/-- Models Python's `int(x)`: ints pass through, floats truncate toward zero,
booleans count as ints, strings are parsed, everything else raises. -/
def pyInt : Toml → Except String Int
  | .int n => .ok n
  | .float q => .ok (Int.tdiv q.n q.den)
  | .bool b => .ok (if b then 1 else 0)
  | .str s =>
      match parseIntStr s with
      | some n => .ok n
      | none => .error "ValueError: invalid literal for int"
  | _ => .error "TypeError: int() argument"

/-- `_as_float_scalar`: unwrap a non-empty list to its head, accept numbers
(booleans included, being Python ints), parse numeric strings, and raise a
friendly error otherwise. -/
def _as_float_scalar (v : Toml) : Except String Q :=
  let v1 := match v with
    | .list (x :: _) => x
    | _ => v
  match v1 with
  | .int n => .ok (qInt n)
  | .float q => .ok q
  | .bool b => .ok (if b then qInt 1 else qInt 0)
  | .str s =>
      match parseFloatQ s with
      | some q => .ok q
      | none => .error "must be a number"
  | _ => .error "must be a number"

/-- Python iteration over a value (`for p in v` / `list(v)`): lists yield
their elements, strings their characters, tables their keys; numbers raise. -/
def pyIterElems : Toml → Except String (List Toml)
  | .list xs => .ok xs
  | .str s => .ok (s.data.map (fun c => .str (String.singleton c)))
  | .table kvs => .ok (kvs.map (fun kv => Toml.str kv.1))
  | _ => .error "TypeError: value is not iterable"

/-- An ill-typed optional integer field is normalised to `none` (the Python
code stores the raw value; only its truthiness and integer reading are ever
consumed downstream, and no error can arise here). -/
def tomlOptInt : Option Toml → Option Int
  | some (.int n) => some n
  | _ => none

/-- `auth.get(k) or None`: empty strings collapse to `None`; non-string
values are normalised to `none` (never consumed by the claims). -/
def tomlOptAuth : Option Toml → Option String
  | some (.str s) => if s = "" then none else some s
  | _ => none

/-- The default `positions` list of `load_config`. -/
def defaultPositions : Toml :=
  .list [.str "QB", .str "RB", .str "WR", .str "TE", .str "D/ST", .str "K",
    .str "FLEX", .str "OP"]

/-- `load_config` over the parsed top-level table: section lookups default to
empty tables, `league_id`/`season_year` are required and `int`-converted,
thresholds run through `_as_float_scalar`, the lock/positions fields are
iterated, and `free_agent_pool_size` is `int`-converted.  Any raised Python
exception is an `Except.error`. -/
def load_config (cfg : List (String × Toml)) : Except String Config :=
  let league := (cfg.lookup "league").getD (.table [])
  let auth := (cfg.lookup "auth").getD (.table [])
  let out := (cfg.lookup "output").getD (.table [])
  let advice := (cfg.lookup "advice").getD (.table [])
  do
    let ppRaw ← tableGet advice "per_position_thresholds" (.table [])
    let pp := if truthy ppRaw then ppRaw else .table []
    let lidV ← subscriptKey league "league_id"
    let league_id ← pyInt lidV
    let syV ← subscriptKey league "season_year"
    let season_year ← pyInt syV
    let spV ← tableGetOpt league "scoring_period"
    let mtV ← tableGetOpt league "my_team_id"
    let s2V ← tableGetOpt auth "espn_s2"
    let swV ← tableGetOpt auth "swid"
    let dirV ← tableGet out "dir" (.str "espn_extractor/data")
    let wxV ← tableGet out "write_xlsx" (.bool true)
    let xpV ← tableGet out "xlsx_path" (.str "espn_extractor/data/league_export.xlsx")
    let sstV ← tableGet advice "start_sit_threshold" (.float (qTen 15))
    let start_sit_threshold ← _as_float_scalar sstV
    let ppPairs ←
      match pp with
      | .table kvs => Except.ok kvs
      | _ => Except.error "AttributeError: no attribute items"
    let per_pos ← ppPairs.mapM (fun kv => do
      let q ← _as_float_scalar kv.2
      pure (kv.1, q))
    let lkV ← tableGet advice "advice_lock_positions" (.list [])
    let lockElems ← pyIterElems lkV
    let fapV ← tableGet advice "free_agent_pool_size" (.int 50)
    let free_agent_pool_size ← pyInt fapV
    let posV ← tableGet advice "positions" defaultPositions
    let posElems ← pyIterElems posV
    let pmV ← tableGet advice "projection_mode" (.str "league_plus_thresholds")
    pure
      { league_id, season_year
        scoring_period := tomlOptInt spV
        my_team_id := tomlOptInt mtV
        espn_s2 := tomlOptAuth s2V
        swid := tomlOptAuth swV
        out_dir := pyStrOf dirV
        write_xlsx := truthy wxV
        xlsx_path := pyStrOf xpV
        start_sit_threshold
        per_pos_thresholds := per_pos
        lock_positions := lockElems.map pyStrOf
        free_agent_pool_size
        positions := posElems.map pyStrOf
        projection_mode := pyStrOf pmV }

/-- The section value consulted for a given name (absent sections default to
empty tables). -/
def sectionOf (cfg : List (String × Toml)) (name : String) : Toml :=
  (cfg.lookup name).getD (.table [])

/-- Whether a TOML value is a table. -/
def isTableB : Toml → Bool
  | .table _ => true
  | _ => false

/-- Whether Python's `int(x)` accepts the value. -/
def intConvertibleB : Toml → Bool
  | .int _ => true
  | .float _ => true
  | .bool _ => true
  | .str s => (parseIntStr s).isSome
  | _ => false

/-- Whether `_as_float_scalar` accepts the value (interpretable as a number). -/
def floatScalarOkB (v : Toml) : Bool :=
  match (match v with
    | Toml.list (x :: _) => x
    | _ => v) with
  | .int _ => true
  | .float _ => true
  | .bool _ => true
  | .str s => (parseFloatQ s).isSome
  | _ => false

/-- Whether Python iteration over the value succeeds. -/
def iterableB : Toml → Bool
  | .list _ => true
  | .str _ => true
  | .table _ => true
  | _ => false

/-- A required key of the `league` section: present in a table. -/
def requiredKeyB (league : Toml) (k : String) : Bool :=
  match league with
  | .table kvs => (kvs.lookup k).isSome
  | _ => false

/-- The effective `per_position_thresholds` value (falsy collapses to an
empty table, mirroring `... or {}`). -/
def perPosEffective (cfg : List (String × Toml)) : Toml :=
  match tableGet (sectionOf cfg "advice") "per_position_thresholds" (.table []) with
  | .ok v => if truthy v then v else .table []
  | .error _ => .table []

/-- A field of the `advice` section with its `load_config` default (meaningful
once `advice` is a table). -/
def adviceField (cfg : List (String × Toml)) (k : String) (dflt : Toml) : Toml :=
  match tableGet (sectionOf cfg "advice") k dflt with
  | .ok v => v
  | .error _ => dflt

/-- The exact success condition of `load_config`: the `advice` section is a
table (its fields are read with `get`), the required `league` keys exist in a
table and are `int`-convertible, the `auth` and `output` sections are tables,
the global and per-position thresholds are interpretable as numbers, the
effective per-position field is a table, the lock/positions fields are
iterable, and the pool size is `int`-convertible. -/
def load_config_ok (cfg : List (String × Toml)) : Bool :=
  isTableB (sectionOf cfg "advice") &&
  (match subscriptKey (sectionOf cfg "league") "league_id" with
   | .ok v => intConvertibleB v
   | .error _ => false) &&
  (match subscriptKey (sectionOf cfg "league") "season_year" with
   | .ok v => intConvertibleB v
   | .error _ => false) &&
  isTableB (sectionOf cfg "auth") &&
  isTableB (sectionOf cfg "output") &&
  floatScalarOkB (adviceField cfg "start_sit_threshold" (.float (qTen 15))) &&
  isTableB (perPosEffective cfg) &&
  (match perPosEffective cfg with
   | .table kvs => kvs.all (fun kv => floatScalarOkB kv.2)
   | _ => true) &&
  iterableB (adviceField cfg "advice_lock_positions" (.list [])) &&
  intConvertibleB (adviceField cfg "free_agent_pool_size" (.int 50)) &&
  iterableB (adviceField cfg "positions" defaultPositions)

/-- The claim's stated failure condition, literally: a required key (league id
or season year) is missing, or a threshold value is not interpretable as a
number. -/
def claim_config_ok (cfg : List (String × Toml)) : Bool :=
  requiredKeyB (sectionOf cfg "league") "league_id" &&
  requiredKeyB (sectionOf cfg "league") "season_year" &&
  floatScalarOkB (adviceField cfg "start_sit_threshold" (.float (qTen 15))) &&
  (match perPosEffective cfg with
   | .table kvs => kvs.all (fun kv => floatScalarOkB kv.2)
   | _ => true)

/-!
Concrete fixtures used by the witnesses and counterexamples below.
-/

/-- A baseline configuration (managed team 1, default 1.5 threshold, no
locks). -/
def cfg0 : Config :=
  ⟨0, 2025, none, some 1, none, none, "espn_extractor/data", false, "x.xlsx",
    qTen 15, [], [], 50, [], "league_plus_thresholds"⟩

/-- The managed team of the sample league. -/
def team1 : Team := ⟨1, "Alpha"⟩

/-- The opposing team of the sample league. -/
def team2 : Team := ⟨2, "Beta"⟩

/-- Sample starter: quarterback projected at 10. -/
def pQBS : Player := ⟨"S-QB", some "QB", "QB", some (qInt 10), [], none⟩

/-- Sample starter: running back projected at 5. -/
def pRBS : Player := ⟨"S-RB", some "RB", "RB", some (qInt 5), [], none⟩

/-- Sample starter: wide receiver projected at 30. -/
def pWRS : Player := ⟨"S-WR", some "WR", "WR", some (qInt 30), [], none⟩

/-- Sample bench quarterback projected at 20 (start/sit candidate). -/
def pQBB : Player := ⟨"B-QB", some "QB", "BE", some (qInt 20), [], none⟩

/-- Sample bench running back projected at 1. -/
def pRBB : Player := ⟨"B-RB", some "RB", "BE", some (qInt 1), [], none⟩

/-- Sample bench wide receiver projected at 0 (trade send asset). -/
def pWRB : Player := ⟨"B-WR", some "WR", "BE", some (qInt 0), [], none⟩

/-- Opponent starter: running back projected at 40. -/
def oRBS : Player := ⟨"O-RB", some "RB", "RB", some (qInt 40), [], none⟩

/-- Opponent starter: quarterback projected at 2. -/
def oQBS : Player := ⟨"O-QB", some "QB", "QB", some (qInt 2), [], none⟩

/-- Opponent bench running back projected at 3 (trade receive asset). -/
def oRBB : Player := ⟨"OB-RB", some "RB", "BE", some (qInt 3), [], none⟩

/-- A free-agent running back projected at 7. -/
def faRB : Player := ⟨"FA-RB", some "RB", "BE", some (qInt 7), [], none⟩

/-- The sample box score pairing the two teams. -/
def exBS : BoxScore :=
  ⟨team1, team2, [pQBS, pRBS, pWRS, pQBB, pRBB, pWRB], [oRBS, oQBS, oRBB]⟩

/-- The sample league: one matchup, one available free-agent running back. -/
def exLeague : League :=
  ⟨[team1, team2], fun _ => [exBS],
    fun _ pos => if pos = "RB" then .ok [faRB] else .ok []⟩

/-- The sample league with the kicker free-agent query raising. -/
def exLeagueKFail : League :=
  ⟨[team1, team2], fun _ => [exBS],
    fun _ pos => if pos = "K" then .error () else
      if pos = "RB" then .ok [faRB] else .ok []⟩

/-- A season fetch that fails for 2019 and returns no teams otherwise. -/
def exFetch : Int → Except String (List HistTeam) :=
  fun y => if y = 2019 then .error "403" else .ok []

/-- A history configuration spanning 2018-2020. -/
def exHistCfg : ConfigLike := ⟨77, 2018, 2020, "out.csv", ",", none, none, false⟩

/-- Start/sit rounding scenario: starter projected at 0. -/
def cex1S : Player := ⟨"S", some "QB", "QB", some (qInt 0), [], none⟩

/-- Start/sit rounding scenario: bench player projected at 2.999. -/
def cex1B : Player := ⟨"B", some "QB", "BE", some (Q.mk' 2999 1000), [], none⟩

/-- Box score of the rounding scenario. -/
def cex1BS : BoxScore := ⟨team1, team2, [cex1S, cex1B], []⟩

/-- League of the rounding scenario. -/
def cex1League : League := ⟨[team1, team2], fun _ => [cex1BS], fun _ _ => .ok []⟩

/-- Configuration of the rounding scenario: threshold exactly 3. -/
def cex1Cfg : Config := {cfg0 with start_sit_threshold := qInt 3}

/-- Lock-set scenario: running-back starter projected at 0. -/
def cex2S : Player := ⟨"S2", some "RB", "RB", some (qInt 0), [], none⟩

/-- Lock-set scenario: bench quarterback, eligible at RB via its slots,
projected at 50. -/
def cex2B : Player := ⟨"BQ", some "QB", "BE", some (qInt 50), ["RB"], none⟩

/-- Box score of the lock-set scenario. -/
def cex2BS : BoxScore := ⟨team1, team2, [cex2S, cex2B], []⟩

/-- League of the lock-set scenario. -/
def cex2League : League := ⟨[team1, team2], fun _ => [cex2BS], fun _ _ => .ok []⟩

/-- Configuration of the lock-set scenario: quarterbacks are locked. -/
def cex2Cfg : Config := {cfg0 with lock_positions := ["QB"]}

/-- A parsed configuration whose `league_id` is present but not interpretable
as an integer. -/
def cexToml : List (String × Toml) :=
  [("league", .table [("league_id", .str "abc"), ("season_year", .int 2024)])]

/-- A history configuration with an empty configured delimiter. -/
def cexHistCfg : ConfigLike := ⟨7, 2018, 2019, "out.csv", "", none, none, false⟩

/-!
Theorems.  First the semantic toolbox for `Q`, strings and lists, then one
theorem per claim (with witnesses and counterexamples where required).
-/

theorem Q.den_pos (q : Q) : 0 < q.den := Nat.succ_pos _

theorem Q.den_cast_pos (q : Q) : (0 : ℚ) < (q.den : ℚ) := by
  exact_mod_cast q.den_pos

theorem Q.den_mk' (n : Int) (d : Nat) (hd : 1 ≤ d) : (Q.mk' n d).den = d := by
  simp only [Q.mk', Q.den]
  omega

theorem Q.n_mk' (n : Int) (d : Nat) : (Q.mk' n d).n = n := rfl

theorem Q.ble_iff (a b : Q) : Q.ble a b = true ↔ a.toRat ≤ b.toRat := by
  simp only [Q.ble, Q.toRat, decide_eq_true_eq]
  rw [div_le_div_iff₀ a.den_cast_pos b.den_cast_pos]
  constructor
  · intro h; exact_mod_cast h
  · intro h; exact_mod_cast h

theorem Q.blt_iff (a b : Q) : Q.blt a b = true ↔ a.toRat < b.toRat := by
  simp only [Q.blt, Q.toRat, decide_eq_true_eq]
  rw [div_lt_div_iff₀ a.den_cast_pos b.den_cast_pos]
  constructor
  · intro h; exact_mod_cast h
  · intro h; exact_mod_cast h

theorem Q.ble_eq_not_blt (a b : Q) : Q.ble a b = ! Q.blt b a := by
  simp only [Q.ble, Q.blt]
  by_cases h : a.n * (b.den : Int) ≤ b.n * (a.den : Int)
  · simp [h, not_lt.mpr h]
  · simp [h, lt_of_not_le h, not_le.mp h]

theorem Q.toRat_add (a b : Q) : (Q.add a b).toRat = a.toRat + b.toRat := by
  have h1 : (1:Nat) ≤ a.den * b.den :=
    Nat.one_le_iff_ne_zero.mpr (Nat.mul_ne_zero a.den_pos.ne' b.den_pos.ne')
  simp only [Q.add, Q.toRat, Q.n_mk', Q.den_mk' _ _ h1]
  have ha := a.den_cast_pos
  have hb := b.den_cast_pos
  field_simp

theorem lookup_mem {α β : Type} [BEq α] [LawfulBEq α] {k : α} {v : β} :
    ∀ {l : List (α × β)}, l.lookup k = some v → (k, v) ∈ l := by
  intro l
  induction l with
  | nil => intro h; simp [List.lookup] at h
  | cons p t ih =>
      obtain ⟨pk, pv⟩ := p
      intro h
      rw [List.lookup] at h
      cases hk : (k == pk) with
      | true =>
          simp only [hk] at h
          have hv : pv = v := Option.some.inj h
          have hk' : k = pk := eq_of_beq hk
          subst hk'
          subst hv
          exact List.mem_cons_self _ _
      | false =>
          simp only [hk] at h
          exact List.mem_cons_of_mem _ (ih h)

theorem upperTable_snd_not_key :
    ∀ p ∈ upperTable, upperTable.lookup p.2 = none := by decide

theorem pyCharUpper_idem (c : Char) : pyCharUpper (pyCharUpper c) = pyCharUpper c := by
  unfold pyCharUpper
  cases h : upperTable.lookup c with
  | none => simp [h]
  | some u =>
      simp only [h, Option.getD_some]
      have hm : (c, u) ∈ upperTable := lookup_mem h
      have := upperTable_snd_not_key (c, u) hm
      simp [this]

theorem pyUpper_idem (s : String) : pyUpper (pyUpper s) = pyUpper s := by
  unfold pyUpper
  apply String.ext
  show (s.data.map pyCharUpper).map pyCharUpper = s.data.map pyCharUpper
  rw [List.map_map]
  exact List.map_congr_left (fun a _ => pyCharUpper_idem a)

theorem pyUpper_ne_empty {s : String} (h : s ≠ "") : pyUpper s ≠ "" := by
  intro hc
  apply h
  apply String.ext
  have : (pyUpper s).data = s.data.map pyCharUpper := rfl
  rw [hc] at this
  have hnil : s.data.map pyCharUpper = [] := this.symm
  rw [List.map_eq_nil_iff] at hnil
  simpa using hnil

/-- C9: position normalisation is idempotent; every casing of `DST` or `D/ST`
normalises to `D/ST`; every other non-empty string normalises to its
uppercase form; `None` and the empty string are returned unchanged. -/
theorem c9_norm_pos_normalization :
    (∀ x : Option String, _norm_pos (_norm_pos x) = _norm_pos x) ∧
    (∀ s : String, (pyUpper s = "DST" ∨ pyUpper s = "D/ST") →
      _norm_pos (some s) = some "D/ST") ∧
    (∀ s : String, s ≠ "" → ¬(pyUpper s = "DST" ∨ pyUpper s = "D/ST") →
      _norm_pos (some s) = some (pyUpper s)) ∧
    _norm_pos none = none ∧ _norm_pos (some "") = some "" := by
  have hdst : ∀ s : String, (pyUpper s = "DST" ∨ pyUpper s = "D/ST") →
      _norm_pos (some s) = some "D/ST" := by
    intro s h
    have hne : s ≠ "" := by
      intro he
      subst he
      revert h
      decide
    unfold _norm_pos
    simp only [hne, if_false]
    simp [h]
  have hother : ∀ s : String, s ≠ "" → ¬(pyUpper s = "DST" ∨ pyUpper s = "D/ST") →
      _norm_pos (some s) = some (pyUpper s) := by
    intro s hne h
    unfold _norm_pos
    simp [hne, h]
  refine ⟨?_, hdst, hother, rfl, rfl⟩
  intro x
  match x with
  | none => rfl
  | some s =>
      by_cases hne : s = ""
      · subst hne; rfl
      · by_cases h : pyUpper s = "DST" ∨ pyUpper s = "D/ST"
        · rw [hdst s h]
          decide
        · rw [hother s hne h]
          have hup : pyUpper (pyUpper s) = pyUpper s := pyUpper_idem s
          have hne2 : pyUpper s ≠ "" := pyUpper_ne_empty hne
          rw [hother (pyUpper s) hne2 (by rwa [hup])]
          rw [hup]

/-- Witness for C9 at concrete inputs. -/
theorem c9_norm_pos_normalization_witness :
    _norm_pos (_norm_pos (some "dst")) = _norm_pos (some "dst") ∧
    _norm_pos (some "d/st") = some "D/ST" ∧
    _norm_pos (some "wr") = some (pyUpper "wr") :=
  ⟨c9_norm_pos_normalization.1 (some "dst"),
    c9_norm_pos_normalization.2.1 "d/st" (by decide),
    c9_norm_pos_normalization.2.2.1 "wr" (by decide) (by decide)⟩

/-- C10: for every league snapshot, team id and week, `_lineup_for_team`
partitions the team's box-score lineup — starters are exactly the non-`BE`,
non-`IR` slots, bench exactly the `BE`/`IR` slots, every lineup player lands
in exactly one of the two lists, and both lists are empty when the team has no
box score. -/
theorem c10_lineup_partition (l : League) (team_id : Int) (week : Option Int) :
    (teamBoxScore l team_id week = none →
      _lineup_for_team l team_id week = ([], [])) ∧
    (∀ bs, teamBoxScore l team_id week = some bs →
      (_lineup_for_team l team_id week).1
          = (sideLineup bs team_id).filter (fun p => !(isBenchSlot p)) ∧
      (_lineup_for_team l team_id week).2
          = (sideLineup bs team_id).filter isBenchSlot ∧
      ∀ p ∈ sideLineup bs team_id,
        (p ∈ (_lineup_for_team l team_id week).1 ∧
          p ∉ (_lineup_for_team l team_id week).2) ∨
        (p ∈ (_lineup_for_team l team_id week).2 ∧
          p ∉ (_lineup_for_team l team_id week).1)) := by
  constructor
  · intro h
    unfold _lineup_for_team
    rw [h]
  · intro bs hbs
    unfold _lineup_for_team
    rw [hbs]
    refine ⟨rfl, rfl, ?_⟩
    intro p hp
    by_cases hb : isBenchSlot p = true
    · right
      constructor
      · exact List.mem_filter.mpr ⟨hp, hb⟩
      · intro hc
        have := (List.mem_filter.mp hc).2
        simp [hb] at this
    · left
      constructor
      · exact List.mem_filter.mpr ⟨hp, by simp [hb]⟩
      · intro hc
        have := (List.mem_filter.mp hc).2
        simp [hb] at this

/-- Witness for C10 on the sample league. -/
theorem c10_lineup_partition_witness :
    (_lineup_for_team exLeague 1 none).1
        = (sideLineup exBS 1).filter (fun p => !(isBenchSlot p)) ∧
    (_lineup_for_team exLeague 1 none).2 = (sideLineup exBS 1).filter isBenchSlot :=
  ⟨((c10_lineup_partition exLeague 1 none).2 exBS rfl).1,
    ((c10_lineup_partition exLeague 1 none).2 exBS rfl).2.1⟩

/-- C7: the three advice functions are pure functions of the snapshot and the
configuration — equal inputs produce equal recommendation lists. -/
theorem c7_advice_deterministic (l₁ l₂ : League) (c₁ c₂ : Config)
    (hl : l₁ = l₂) (hc : c₁ = c₂) :
    recommend_start_sit l₁ c₁ = recommend_start_sit l₂ c₂ ∧
    recommend_trades l₁ c₁ = recommend_trades l₂ c₂ ∧
    free_agent_targets l₁ c₁ = free_agent_targets l₂ c₂ := by
  subst hl
  subst hc
  exact ⟨rfl, rfl, rfl⟩

/-- Witness for C7 on the sample league. -/
theorem c7_advice_deterministic_witness :
    recommend_start_sit exLeague cfg0 = recommend_start_sit exLeague cfg0 ∧
    recommend_trades exLeague cfg0 = recommend_trades exLeague cfg0 ∧
    free_agent_targets exLeague cfg0 = free_agent_targets exLeague cfg0 :=
  c7_advice_deterministic exLeague exLeague cfg0 cfg0 rfl rfl

theorem foldl_append_pred {α β : Type} (P : β → Prop) (f : List β → α → List β)
    (hf : ∀ acc x, (∀ a ∈ acc, P a) → ∀ a ∈ f acc x, P a) :
    ∀ (xs : List α) (acc : List β), (∀ a ∈ acc, P a) → ∀ a ∈ xs.foldl f acc, P a := by
  intro xs
  induction xs with
  | nil => intro acc h a ha; exact h a ha
  | cons x t ih => intro acc h a ha; exact ih (f acc x) (hf acc x h) a ha

theorem recommend_start_sit_tag (l : League) (cfg : Config) :
    ∀ a ∈ recommend_start_sit l cfg, a.tag = "start_sit" := by
  intro a ha
  unfold recommend_start_sit at ha
  cases hmt : cfg.my_team_id with
  | none => rw [hmt] at ha; simp at ha
  | some tid =>
      rw [hmt] at ha
      refine foldl_append_pred (fun b => b.tag = "start_sit") _ ?_ _ _
        (by intro b hb; simp at hb) a ha
      intro acc starter hacc b hb
      dsimp only at hb
      split at hb
      · exact hacc b hb
      · split at hb
        · exact hacc b hb
        · split at hb
          · rcases List.mem_append.mp hb with h | h
            · exact hacc b h
            · simp only [List.mem_singleton] at h
              subst h
              rfl
          · exact hacc b hb

theorem recommend_trades_tag (l : League) (cfg : Config) :
    ∀ a ∈ recommend_trades l cfg, a.tag = "trade" := by
  intro a ha
  unfold recommend_trades at ha
  cases hmt : cfg.my_team_id with
  | none => rw [hmt] at ha; simp at ha
  | some tid =>
      rw [hmt] at ha
      have ha' := List.mem_of_mem_take ha
      rw [List.mem_flatMap] at ha'
      obtain ⟨opp, _, ha'⟩ := ha'
      rw [List.mem_flatMap] at ha'
      obtain ⟨gp, _, ha'⟩ := ha'
      dsimp only at ha'
      split at ha'
      · simp at ha'
      · split at ha'
        · rw [List.mem_flatMap] at ha'
          obtain ⟨np, _, ha'⟩ := ha'
          split at ha'
          · simp at ha'
          · split at ha'
            · split at ha'
              · simp only [List.mem_singleton] at ha'
                subst ha'
                rfl
              · simp at ha'
            · simp at ha'
        · simp at ha'

theorem free_agent_targets_tag (l : League) (cfg : Config) :
    ∀ a ∈ free_agent_targets l cfg, a.tag = "add" := by
  unfold free_agent_targets
  intro a ha
  have ha' := List.mem_of_mem_take ha
  rw [List.mem_flatMap] at ha'
  obtain ⟨pos, _, ha'⟩ := ha'
  unfold faBlock at ha'
  split at ha'
  · simp at ha'
  · split at ha'
    · simp at ha'
    · rw [List.mem_map] at ha'
      obtain ⟨p, _, hp⟩ := ha'
      subst hp
      rfl

/-- C6: the combined advice list is exactly the start/sit recommendations,
then the add recommendations, then the trade recommendations, and every item
carries one of the three type tags (each function tagging its own kind). -/
theorem c6_advice_concatenation (l : League) (cfg : Config) :
    combined_advice l cfg =
      recommend_start_sit l cfg ++ free_agent_targets l cfg ++
        recommend_trades l cfg ∧
    (∀ a ∈ recommend_start_sit l cfg, a.tag = "start_sit") ∧
    (∀ a ∈ free_agent_targets l cfg, a.tag = "add") ∧
    (∀ a ∈ recommend_trades l cfg, a.tag = "trade") ∧
    (∀ a ∈ combined_advice l cfg,
      a.tag = "start_sit" ∨ a.tag = "add" ∨ a.tag = "trade") := by
  refine ⟨rfl, recommend_start_sit_tag l cfg, free_agent_targets_tag l cfg,
    recommend_trades_tag l cfg, ?_⟩
  intro a ha
  unfold combined_advice at ha
  rcases List.mem_append.mp ha with h | h
  · rcases List.mem_append.mp h with h' | h'
    · exact Or.inl (recommend_start_sit_tag l cfg a h')
    · exact Or.inr (Or.inl (free_agent_targets_tag l cfg a h'))
  · exact Or.inr (Or.inr (recommend_trades_tag l cfg a h))

/-- Witness for C6 on the sample league (one advice item of each kind). -/
theorem c6_advice_concatenation_witness :
    combined_advice exLeague cfg0 =
      recommend_start_sit exLeague cfg0 ++ free_agent_targets exLeague cfg0 ++
        recommend_trades exLeague cfg0 ∧
    (mkStartSitRec pQBS pQBB (qHun 1000) (qTen 15)).tag = "start_sit" ∧
    (mkAddRec "RB" faRB).tag = "add" ∧
    (mkTradeRec team2 pWRB oRBB (some "WR") (some "RB")).tag = "trade" :=
  ⟨(c6_advice_concatenation exLeague cfg0).1,
    (c6_advice_concatenation exLeague cfg0).2.1 _ (by decide),
    (c6_advice_concatenation exLeague cfg0).2.2.1 _ (by decide),
    (c6_advice_concatenation exLeague cfg0).2.2.2.1 _ (by decide)⟩

/-- Counterexample for C8: with an empty configured delimiter the offline
file is written with `","`, not the configured delimiter (the falsy-delimiter
fallback), so the output is not always "using the configured delimiter". -/
theorem c8_counterexample :
    (extract_team_records (fun _ => .ok []) cexHistCfg true).delimiter = "," ∧
    cexHistCfg.delimiter = "" ∧ ("," : String) ≠ "" := by
  refine ⟨rfl, rfl, ?_⟩
  decide

/-- C8 (amended): offline mode writes exactly the header row and the 10 fixed
2018 sample rows to the configured output file with the configured delimiter —
where an empty out file falls back to `league_history.csv` and an empty
delimiter to `","` — independent of the season fetcher (no network) and of
every configuration field other than `out_file` and `delimiter`. -/
theorem c8_offline_fixture (fetch fetch' : Int → Except String (List HistTeam))
    (cfg cfg' : ConfigLike) (hout : cfg.out_file = cfg'.out_file)
    (hdel : cfg.delimiter = cfg'.delimiter) :
    extract_team_records fetch cfg true =
      ⟨(if cfg.out_file = "" then "league_history.csv" else cfg.out_file),
       (if cfg.delimiter = "" then "," else cfg.delimiter),
       _HEADERS, _SAMPLE_HISTORY_2018⟩ ∧
    _SAMPLE_HISTORY_2018.length = 10 ∧
    extract_team_records fetch cfg true = extract_team_records fetch' cfg' true := by
  refine ⟨rfl, rfl, ?_⟩
  show (⟨(if cfg.out_file = "" then "league_history.csv" else cfg.out_file),
       (if cfg.delimiter = "" then "," else cfg.delimiter),
       _HEADERS, _SAMPLE_HISTORY_2018⟩ : WrittenFile) =
    ⟨(if cfg'.out_file = "" then "league_history.csv" else cfg'.out_file),
       (if cfg'.delimiter = "" then "," else cfg'.delimiter),
       _HEADERS, _SAMPLE_HISTORY_2018⟩
  rw [hout, hdel]

/-- Witness for C8 on concrete configurations differing in league id and year
range and in the fetcher. -/
theorem c8_offline_fixture_witness :
    extract_team_records exFetch exHistCfg true =
      ⟨"out.csv", ",", _HEADERS, _SAMPLE_HISTORY_2018⟩ ∧
    extract_team_records exFetch exHistCfg true =
      extract_team_records (fun _ => .ok [])
        ⟨999, 1999, 2003, "out.csv", ",", none, none, true⟩ true :=
  ⟨(c8_offline_fixture exFetch (fun _ => .ok []) exHistCfg
      ⟨999, 1999, 2003, "out.csv", ",", none, none, true⟩ rfl rfl).1,
    (c8_offline_fixture exFetch (fun _ => .ok []) exHistCfg
      ⟨999, 1999, 2003, "out.csv", ",", none, none, true⟩ rfl rfl).2.2⟩

/-- C4: a season whose fetch raises contributes nothing while every other
season is still processed; the history file always carries the header row (in
particular when zero data rows were produced); and a free-agent position
whose query raises is skipped while the remaining positions are still
processed. -/
theorem c4_fetch_failures_skipped :
    (∀ (fetch : Int → Except String (List HistTeam)) (cfg : ConfigLike)
        (y : Int) (e : String),
      fetch y = .error e →
      _iter_production_rows fetch cfg =
        _iter_production_rows (fun z => if z = y then .ok [] else fetch z) cfg) ∧
    (∀ (fetch : Int → Except String (List HistTeam)) (cfg : ConfigLike)
        (tm : Bool),
      (extract_team_records fetch cfg tm).header = _HEADERS) ∧
    (∀ (l : League) (cfg : Config) (pos : String),
      l.freeAgents cfg.free_agent_pool_size pos = .error () →
      free_agent_targets l cfg =
        free_agent_targets
          {l with freeAgents := fun s p =>
            if p = pos then .ok [] else l.freeAgents s p} cfg) := by
  refine ⟨?_, ?_, ?_⟩
  · intro fetch cfg y e hy
    unfold _iter_production_rows
    apply List.flatMap_congr
    intro z _
    by_cases hzy : z = y
    · subst hzy
      rw [hy]
      simp
    · simp [hzy]
  · intro fetch cfg tm
    unfold extract_team_records
    cases tm <;> rfl
  · intro l cfg pos hfa
    unfold free_agent_targets
    refine congrArg (List.take 10) (List.flatMap_congr ?_)
    intro pos' _
    unfold faBlock
    split_ifs with hlock
    · rfl
    · by_cases hpp : pos' = pos
      · subst hpp
        rw [hfa]
        have hnil : sortFaDesc [] = [] := rfl
        simp [hnil]
      · simp [hpp]

/-- Witness for C4: the 2019 fetch failure is skipped, the header survives an
all-years run, and the failing kicker query is skipped. -/
theorem c4_fetch_failures_skipped_witness :
    _iter_production_rows exFetch exHistCfg =
      _iter_production_rows (fun z => if z = 2019 then .ok [] else exFetch z)
        exHistCfg ∧
    (extract_team_records exFetch exHistCfg false).header = _HEADERS ∧
    free_agent_targets exLeagueKFail cfg0 =
      free_agent_targets
        {exLeagueKFail with freeAgents := fun s p =>
          if p = "K" then .ok [] else exLeagueKFail.freeAgents s p} cfg0 :=
  ⟨c4_fetch_failures_skipped.1 exFetch exHistCfg 2019 "403" rfl,
    c4_fetch_failures_skipped.2.1 exFetch exHistCfg false,
    c4_fetch_failures_skipped.2.2 exLeagueKFail cfg0 "K" rfl⟩

instance : IsTotal Player ProjGe :=
  ⟨fun a b => by
    unfold ProjGe
    rcases le_total ((effProj b).toRat) ((effProj a).toRat) with h | h
    · exact Or.inl ((Q.ble_iff _ _).mpr h)
    · exact Or.inr ((Q.ble_iff _ _).mpr h)⟩

instance : IsTrans Player ProjGe :=
  ⟨fun a b c hab hbc => by
    unfold ProjGe at *
    rw [Q.ble_iff] at *
    exact le_trans hbc hab⟩

theorem take5_top (fas : List Player) :
    ∀ p ∈ fas, p ∉ (sortFaDesc fas).take 5 →
      ((sortFaDesc fas).take 5).length = 5 ∧
      ∀ q ∈ (sortFaDesc fas).take 5, (effProj p).toRat ≤ (effProj q).toRat := by
  intro p hp hnot
  have hperm : (sortFaDesc fas).Perm fas := List.perm_insertionSort _ _
  have hps : p ∈ sortFaDesc fas := hperm.mem_iff.mpr hp
  have hsplit := List.take_append_drop 5 (sortFaDesc fas)
  have hpd : p ∈ (sortFaDesc fas).drop 5 := by
    have hmem := hps
    rw [← hsplit] at hmem
    rcases List.mem_append.mp hmem with h | h
    · exact absurd h hnot
    · exact h
  have hlen : 5 ≤ (sortFaDesc fas).length := by
    by_contra hlt
    push_neg at hlt
    have hemp : (sortFaDesc fas).drop 5 = [] :=
      List.drop_eq_nil_of_le (le_of_lt hlt)
    rw [hemp] at hpd
    simp at hpd
  constructor
  · rw [List.length_take]
    omega
  · intro q hq
    have hsorted : (sortFaDesc fas).Sorted ProjGe := List.sorted_insertionSort _ _
    rw [← hsplit] at hsorted
    have h3 := (List.pairwise_append.mp hsorted).2.2
    have hqp := h3 q hq p hpd
    unfold ProjGe at hqp
    exact (Q.ble_iff _ _).mp hqp

/-- C3: the free-agent rule scans the fixed position list, keeps per position
at most the top 5 of the available pool ordered by descending projection
(every omitted pool player projects no higher than every kept one), and
returns at most 10 suggestions in total. -/
theorem c3_free_agent_rule (l : League) (cfg : Config) :
    (free_agent_targets l cfg).length ≤ 10 ∧
    free_agent_targets l cfg = (faPositions.flatMap (faBlock l cfg)).take 10 ∧
    (∀ pos, (faBlock l cfg pos).length ≤ 5) ∧
    (∀ pos fas, l.freeAgents cfg.free_agent_pool_size pos = .ok fas →
      ((lockset cfg).contains (_norm_pos (some pos))) = false →
      faBlock l cfg pos = ((sortFaDesc fas).take 5).map (mkAddRec pos) ∧
      ((sortFaDesc fas).take 5).Sorted ProjGe ∧
      (∀ p ∈ (sortFaDesc fas).take 5, p ∈ fas) ∧
      (∀ p ∈ fas, p ∉ (sortFaDesc fas).take 5 →
        ((sortFaDesc fas).take 5).length = 5 ∧
        ∀ q ∈ (sortFaDesc fas).take 5,
          (effProj p).toRat ≤ (effProj q).toRat)) := by
  refine ⟨List.length_take_le _ _, rfl, ?_, ?_⟩
  · intro pos
    unfold faBlock
    split_ifs with h
    · simp
    · cases hfa : l.freeAgents cfg.free_agent_pool_size pos with
      | error e => simp
      | ok fas =>
          rw [List.length_map, List.length_take]
          omega
  · intro pos fas hfa hlock
    refine ⟨?_, ?_, ?_, take5_top fas⟩
    · have hc : ¬((lockset cfg).contains (_norm_pos (some pos)) = true) := by
        rw [hlock]
        simp
      unfold faBlock
      rw [hfa, if_neg hc]
    · exact (List.sorted_insertionSort ProjGe fas).sublist (List.take_sublist _ _)
    · intro p hp
      exact (List.perm_insertionSort ProjGe fas).mem_iff.mp
        (List.mem_of_mem_take hp)

/-- Witness for C3 on the sample league. -/
theorem c3_free_agent_rule_witness :
    (free_agent_targets exLeague cfg0).length ≤ 10 ∧
    faBlock exLeague cfg0 "RB" = ((sortFaDesc [faRB]).take 5).map (mkAddRec "RB") :=
  ⟨(c3_free_agent_rule exLeague cfg0).1,
    ((c3_free_agent_rule exLeague cfg0).2.2.2 "RB" [faRB] rfl rfl).1⟩

theorem Q.toRat_qInt (z : Int) : (qInt z).toRat = (z : ℚ) := by
  simp [qInt, Q.toRat, Q.den]

theorem blt_add8_iff (a b : Q) :
    Q.blt (Q.add a (qInt 8)) b = true ↔ a.toRat + 8 < b.toRat := by
  rw [Q.blt_iff, Q.toRat_add, Q.toRat_qInt]
  norm_num

/-- C2: every trade suggestion names an opponent and two distinct unlocked
positions where the managed team's starter strength exceeds the opponent's by
more than the fixed 8.0 margin at the give position and conversely at the
need position, swaps one managed-team bench asset at the give position for
one opponent bench asset at the need position (both existing), and at most 5
suggestions are returned. -/
theorem c2_trade_rule (l : League) (cfg : Config) :
    (recommend_trades l cfg).length ≤ 5 ∧
    ∀ r ∈ recommend_trades l cfg,
      ∃ tid opp give_pos need_pos send recv,
        cfg.my_team_id = some tid ∧
        opp ∈ l.teams ∧ opp.team_id ≠ tid ∧
        give_pos ∈ tradePositions ∧ need_pos ∈ tradePositions ∧
        _norm_pos (some need_pos) ≠ _norm_pos (some give_pos) ∧
        (_team_strength_by_pos l opp.team_id cfg.scoring_period
            (_norm_pos (some give_pos))).toRat + 8 <
          (_team_strength_by_pos l tid cfg.scoring_period
            (_norm_pos (some give_pos))).toRat ∧
        (_team_strength_by_pos l tid cfg.scoring_period
            (_norm_pos (some need_pos))).toRat + 8 <
          (_team_strength_by_pos l opp.team_id cfg.scoring_period
            (_norm_pos (some need_pos))).toRat ∧
        send ∈ (_lineup_for_team l tid cfg.scoring_period).2 ∧
        _norm_pos send.position = _norm_pos (some give_pos) ∧
        recv ∈ (_lineup_for_team l opp.team_id cfg.scoring_period).2 ∧
        _norm_pos recv.position = _norm_pos (some need_pos) ∧
        r = mkTradeRec opp send recv (_norm_pos (some give_pos))
          (_norm_pos (some need_pos)) := by
  constructor
  · unfold recommend_trades
    cases cfg.my_team_id with
    | none => simp
    | some tid => exact List.length_take_le _ _
  · intro r hr
    unfold recommend_trades at hr
    cases hmt : cfg.my_team_id with
    | none => rw [hmt] at hr; simp at hr
    | some tid =>
        rw [hmt] at hr
        have hr' := List.mem_of_mem_take hr
        rw [List.mem_flatMap] at hr'
        obtain ⟨opp, hopp, hr'⟩ := hr'
        rw [List.mem_filter] at hopp
        obtain ⟨hoppmem, hoppne⟩ := hopp
        rw [List.mem_flatMap] at hr'
        obtain ⟨give_pos, hgive, hr'⟩ := hr'
        dsimp only at hr'
        split at hr'
        · simp at hr'
        · split at hr'
          · rename_i hstrgive
            rw [List.mem_flatMap] at hr'
            obtain ⟨need_pos, hneed, hr'⟩ := hr'
            split at hr'
            · simp at hr'
            · rename_i hnpcond
              split at hr'
              · rename_i hstrneed
                split at hr'
                · rename_i x1 x2 send recv hsend hrecv
                  simp only [List.mem_singleton] at hr'
                  subst hr'
                  have hps := List.find?_some hsend
                  have hpr := List.find?_some hrecv
                  refine ⟨tid, opp, give_pos, need_pos, send, recv, rfl,
                    hoppmem, ?_, hgive, hneed, ?_,
                    (blt_add8_iff _ _).mp hstrgive,
                    (blt_add8_iff _ _).mp hstrneed, ?_,
                    eq_of_beq hps, List.mem_of_find?_eq_some hrecv,
                    eq_of_beq hpr, rfl⟩
                  · intro hc
                    rw [hc] at hoppne
                    simp at hoppne
                  · intro hc
                    apply hnpcond
                    simp [hc]
                  · have hm := List.mem_of_find?_eq_some hsend
                    exact (List.mem_filter.mp hm).1
                · simp at hr'
              · simp at hr'
          · simp at hr'

/-- Witness for C2: the sample league's one trade suggestion satisfies the
rule. -/
theorem c2_trade_rule_witness :
    (recommend_trades exLeague cfg0).length ≤ 5 ∧
    (∃ tid opp give_pos need_pos send recv,
      cfg0.my_team_id = some tid ∧
      opp ∈ exLeague.teams ∧ opp.team_id ≠ tid ∧
      give_pos ∈ tradePositions ∧ need_pos ∈ tradePositions ∧
      _norm_pos (some need_pos) ≠ _norm_pos (some give_pos) ∧
      (_team_strength_by_pos exLeague opp.team_id cfg0.scoring_period
          (_norm_pos (some give_pos))).toRat + 8 <
        (_team_strength_by_pos exLeague tid cfg0.scoring_period
          (_norm_pos (some give_pos))).toRat ∧
      (_team_strength_by_pos exLeague tid cfg0.scoring_period
          (_norm_pos (some need_pos))).toRat + 8 <
        (_team_strength_by_pos exLeague opp.team_id cfg0.scoring_period
          (_norm_pos (some need_pos))).toRat ∧
      send ∈ (_lineup_for_team exLeague tid cfg0.scoring_period).2 ∧
      _norm_pos send.position = _norm_pos (some give_pos) ∧
      recv ∈ (_lineup_for_team exLeague opp.team_id cfg0.scoring_period).2 ∧
      _norm_pos recv.position = _norm_pos (some need_pos) ∧
      mkTradeRec team2 pWRB oRBB (some "WR") (some "RB") =
        mkTradeRec opp send recv (_norm_pos (some give_pos))
          (_norm_pos (some need_pos))) :=
  ⟨(c2_trade_rule exLeague cfg0).1,
    (c2_trade_rule exLeague cfg0).2 _ (by decide)⟩

theorem not_blt_iff (a b : Q) :
    ((! Q.blt a b) = true) ↔ b.toRat ≤ a.toRat := by
  have h := Q.blt_iff a b
  cases hb : Q.blt a b <;> simp_all [not_lt]

theorem find?_congr_mem {α : Type} {p q : α → Bool} :
    ∀ {l : List α}, (∀ a ∈ l, p a = q a) → l.find? p = l.find? q := by
  intro l
  induction l with
  | nil => intro _; rfl
  | cons x t ih =>
      intro h
      by_cases hx : p x = true
      · rw [List.find?_cons_of_pos _ hx,
          List.find?_cons_of_pos _ (by rw [← h x (List.mem_cons_self x t)]; exact hx)]
      · rw [List.find?_cons_of_neg _ hx,
          List.find?_cons_of_neg _ (by rw [← h x (List.mem_cons_self x t)]; exact hx),
          ih (fun a ha => h a (List.mem_cons_of_mem x ha))]

theorem all_proj_iff (L : List Player) (b : Player) :
    (L.all (fun c => ! Q.blt (effProj b) (effProj c)) = true) ↔
      ∀ c ∈ L, (effProj c).toRat ≤ (effProj b).toRat := by
  rw [List.all_eq_true]
  constructor
  · intro h c hc
    exact (not_blt_iff _ _).mp (h c hc)
  · intro h c hc
    exact (not_blt_iff _ _).mpr (h c hc)

theorem firstMax_cons :
    ∀ (t : List Player) (x : Player),
      firstMaxByProj (x :: t) = some (pyMaxByProj x t) := by
  intro t
  induction t with
  | nil =>
      intro x
      have hirr : Q.blt (effProj x) (effProj x) = false := by simp [Q.blt]
      unfold firstMaxByProj
      rw [List.find?_cons_of_pos _ (by simp [hirr])]
      rfl
  | cons y t' ih =>
      intro x
      have hstep : pyMaxByProj x (y :: t') =
          pyMaxByProj (if Q.blt (effProj x) (effProj y) then y else x) t' := rfl
      rw [hstep, ← ih]
      by_cases hxy : Q.blt (effProj x) (effProj y) = true
      · rw [if_pos hxy]
        have hkxy : (effProj x).toRat < (effProj y).toRat := (Q.blt_iff _ _).mp hxy
        unfold firstMaxByProj
        have hPxne : ¬((x :: y :: t').all
            (fun c => ! Q.blt (effProj x) (effProj c)) = true) := by
          intro hall
          have := (all_proj_iff _ _).mp hall y (by simp)
          exact absurd this (not_le.mpr hkxy)
        rw [@List.find?_cons_of_neg Player
          (fun b => (x :: y :: t').all fun c => ! Q.blt (effProj b) (effProj c))
          x (y :: t') hPxne]
        apply find?_congr_mem
        intro b hb
        rw [List.all_cons]
        cases hPb : ((y :: t').all fun c => ! Q.blt (effProj b) (effProj c)) with
        | false => simp
        | true =>
            have hyb : (effProj y).toRat ≤ (effProj b).toRat :=
              (all_proj_iff _ _).mp hPb y (by simp)
            have hxb : (effProj x).toRat ≤ (effProj b).toRat :=
              le_of_lt (lt_of_lt_of_le hkxy hyb)
            rw [(not_blt_iff _ _).mpr hxb]
            simp
      · rw [if_neg hxy]
        have hyx : (effProj y).toRat ≤ (effProj x).toRat :=
          not_lt.mp (fun hc => hxy ((Q.blt_iff _ _).mpr hc))
        have hpt : ∀ b, ((x :: y :: t').all
              (fun c => ! Q.blt (effProj b) (effProj c)))
            = ((x :: t').all (fun c => ! Q.blt (effProj b) (effProj c))) := by
          intro b
          rw [List.all_cons, List.all_cons,
            show ((x :: t').all fun c => ! Q.blt (effProj b) (effProj c))
              = ((! Q.blt (effProj b) (effProj x)) &&
                (t'.all fun c => ! Q.blt (effProj b) (effProj c))) from List.all_cons]
          cases hbx : (! Q.blt (effProj b) (effProj x)) with
          | false => simp
          | true =>
              have hxb : (effProj x).toRat ≤ (effProj b).toRat :=
                (not_blt_iff _ _).mp hbx
              have hyb : (effProj y).toRat ≤ (effProj b).toRat := le_trans hyx hxb
              rw [(not_blt_iff _ _).mpr hyb]
              simp
        unfold firstMaxByProj
        by_cases hPx : ((x :: y :: t').all
            (fun c => ! Q.blt (effProj x) (effProj c))) = true
        · rw [@List.find?_cons_of_pos Player
              (fun b => (x :: y :: t').all fun c => ! Q.blt (effProj b) (effProj c))
              x (y :: t') hPx,
            @List.find?_cons_of_pos Player
              (fun b => (x :: t').all fun c => ! Q.blt (effProj b) (effProj c))
              x t' (by have h2 := hPx; rw [hpt x] at h2; exact h2)]
        · have hPx' : ¬((x :: t').all
              (fun c => ! Q.blt (effProj x) (effProj c))) = true := by
            rw [← hpt x]
            exact hPx
          rw [@List.find?_cons_of_neg Player
              (fun b => (x :: y :: t').all fun c => ! Q.blt (effProj b) (effProj c))
              x (y :: t') hPx,
            @List.find?_cons_of_neg Player
              (fun b => (x :: t').all fun c => ! Q.blt (effProj b) (effProj c))
              x t' hPx']
          have hPy : ¬((x :: y :: t').all
              (fun c => ! Q.blt (effProj y) (effProj c))) = true := by
            intro hall
            apply hPx
            rw [all_proj_iff] at hall ⊢
            intro c hc
            exact le_trans (hall c hc) hyx
          rw [@List.find?_cons_of_neg Player
              (fun b => (x :: y :: t').all fun c => ! Q.blt (effProj b) (effProj c))
              y t' hPy]
          exact find?_congr_mem (fun b _ => hpt b)

theorem foldl_eq_filterMap {α β : Type} (g : α → Option β) (f : List β → α → List β)
    (hf : ∀ acc x, f acc x = match g x with
      | some b => acc ++ [b]
      | none => acc) :
    ∀ (xs : List α) (acc : List β), xs.foldl f acc = acc ++ xs.filterMap g := by
  intro xs
  induction xs with
  | nil => intro acc; simp
  | cons x t ih =>
      intro acc
      rw [List.foldl_cons, ih (f acc x), hf]
      cases hg : g x with
      | none => simp [List.filterMap_cons, hg]
      | some b => simp [List.filterMap_cons, hg]

/-- C1 (amended): the start/sit recommendations are exactly the per-starter
outcomes of `start_sit_spec` — skip locked starters, filter the bench by
eligibility (which also excludes bench players at locked positions), take the
first highest-projection eligible bench player, and emit exactly when the
rounded difference `round(bench - starter, 2)` reaches the position's
threshold (per-position when configured, else the global default). -/
theorem c1_start_sit_rule (l : League) (cfg : Config) :
    recommend_start_sit l cfg =
      match cfg.my_team_id with
      | none => []
      | some tid =>
          (_lineup_for_team l tid cfg.scoring_period).1.filterMap
            (start_sit_spec (lockset cfg)
              (_lineup_for_team l tid cfg.scoring_period).2 cfg) := by
  unfold recommend_start_sit
  cases cfg.my_team_id with
  | none => rfl
  | some tid =>
      dsimp only
      refine ((foldl_eq_filterMap _ _ ?_ _ []).trans (List.nil_append _))
      intro acc starter
      dsimp only
      unfold start_sit_spec
      by_cases hlock : (lockset cfg).contains (_norm_pos starter.position) = true
      · rw [if_pos hlock, if_pos hlock]
      · rw [if_neg hlock, if_neg hlock]
        cases hE : (_lineup_for_team l tid cfg.scoring_period).2.filter
            (eligibleForStarter (lockset cfg) (_norm_pos starter.position)) with
        | nil => rfl
        | cons b bs =>
            dsimp only
            rw [firstMax_cons bs b]
            by_cases hble : Q.ble (_threshold_for (_norm_pos starter.position) cfg)
                (pyRound2 (Q.sub (effProj (pyMaxByProj b bs)) (effProj starter))) = true
            · simp [hble]
            · simp [hble]

/-- Counterexample for C1: on `cex1League` the bench player projects 2.999
against a starter's 0 with threshold 3 — the code emits a recommendation
because it compares the rounded delta (3.0), while the claim's unrounded test
(2.999 ≥ 3) emits none; on `cex2League` a locked-position bench player is
eligible by slots under the claim's reading but the code excludes it. -/
theorem c1_counterexample :
    (recommend_start_sit cex1League cex1Cfg).length = 1 ∧
    (_lineup_for_team cex1League 1 none).1.filterMap
      (claim_start_sit_spec (lockset cex1Cfg)
        (_lineup_for_team cex1League 1 none).2 cex1Cfg) = [] ∧
    recommend_start_sit cex2League cex2Cfg = [] ∧
    ((_lineup_for_team cex2League 1 none).1.filterMap
      (claim_start_sit_spec (lockset cex2Cfg)
        (_lineup_for_team cex2League 1 none).2 cex2Cfg)).length = 1 := by
  decide

theorem ebind_ok {ε α β : Type} (v : α) (f : α → Except ε β) :
    (Except.ok v >>= f) = f v := rfl

theorem ebind_error {ε α β : Type} (e : ε) (f : α → Except ε β) :
    ((Except.error e : Except ε α) >>= f) = Except.error e := rfl

theorem epure {ε α : Type} (v : α) : (pure v : Except ε α) = Except.ok v := rfl

theorem isOk_ok {ε α : Type} (v : α) : (Except.ok v : Except ε α).isOk = true := rfl

theorem isOk_error {ε α : Type} (e : ε) :
    (Except.error e : Except ε α).isOk = false := rfl

theorem pyInt_isOk (v : Toml) : (pyInt v).isOk = intConvertibleB v := by
  cases v with
  | str s =>
      unfold pyInt intConvertibleB
      dsimp only
      cases parseIntStr s <;> rfl
  | int n => rfl
  | float q => rfl
  | bool b => rfl
  | list xs => rfl
  | table kvs => rfl

theorem afs_isOk (v : Toml) : (_as_float_scalar v).isOk = floatScalarOkB v := by
  cases v with
  | int n => rfl
  | float q => rfl
  | bool b => rfl
  | table kvs => rfl
  | str s =>
      unfold _as_float_scalar floatScalarOkB
      dsimp only
      cases parseFloatQ s <;> rfl
  | list xs =>
      cases xs with
      | nil => rfl
      | cons x t =>
          unfold _as_float_scalar floatScalarOkB
          dsimp only
          cases x with
          | str s => dsimp only; cases parseFloatQ s <;> rfl
          | int n => rfl
          | float q => rfl
          | bool b => rfl
          | list ys => rfl
          | table kvs => rfl

theorem iter_isOk (v : Toml) : (pyIterElems v).isOk = iterableB v := by
  cases v <;> rfl

theorem emap_ok {ε α β : Type} (f : α → β) (v : α) :
    (f <$> (Except.ok v : Except ε α)) = Except.ok (f v) := rfl

theorem emap_error {ε α β : Type} (f : α → β) (e : ε) :
    (f <$> (Except.error e : Except ε α)) = Except.error e := rfl

theorem mapM_afs_loop_isOk :
    ∀ (kvs : List (String × Toml)) (acc : List (String × Q)),
      (List.mapM.loop
          (fun (kv : String × Toml) => _as_float_scalar kv.2 >>= fun q =>
            pure (kv.1, q))
          kvs acc).isOk
        = kvs.all (fun kv => floatScalarOkB kv.2) := by
  intro kvs
  induction kvs with
  | nil => intro acc; rfl
  | cons x t ih =>
      intro acc
      show ((_as_float_scalar x.2 >>= fun q =>
          (pure (x.1, q) : Except String (String × Q))) >>= fun b =>
          List.mapM.loop
            (fun (kv : String × Toml) => _as_float_scalar kv.2 >>= fun q =>
              pure (kv.1, q))
            t (b :: acc)).isOk
        = (x :: t).all (fun kv => floatScalarOkB kv.2)
      cases hv : _as_float_scalar x.2 with
      | error e =>
          have h2 := afs_isOk x.2
          rw [hv] at h2
          simp only [ebind_error, isOk_error, List.all_cons, ← h2,
            Bool.false_and]
      | ok q =>
          have h2 := afs_isOk x.2
          rw [hv] at h2
          simp only [ebind_ok, epure, List.all_cons, ← h2, isOk_ok,
            Bool.true_and]
          exact ih ((x.1, q) :: acc)

theorem mapM_afs_isOk (kvs : List (String × Toml)) :
    ((kvs.mapM (fun (kv : String × Toml) => _as_float_scalar kv.2 >>= fun q =>
      pure (kv.1, q)) : Except String (List (String × Q)))).isOk
        = kvs.all (fun kv => floatScalarOkB kv.2) :=
  mapM_afs_loop_isOk kvs []

set_option maxHeartbeats 2000000 in
/-- C5: the claim says `load_config` fails exactly when a required key is
missing or a threshold is not interpretable as a number.  This theorem
characterises the actual failure condition of the embedded `load_config`:
it fails exactly when any of the four sections it reads (league, auth,
output, advice) is present with a non-table value (the league subscript
raises a TypeError, the other sections raise an AttributeError on .get),
when `league_id` or `season_year` is missing or not int-convertible, when
the global threshold is not a numeric scalar, when the truthy
`per_position_thresholds` value is not a table or holds a non-numeric entry,
when `advice_lock_positions` or `positions` is not iterable, or when
`free_agent_pool_size` is not int-convertible.  This differs from the
claim: `cexToml` below fails although no required key is missing and every
threshold is numeric. -/
theorem c5_load_config_errors (cfg : List (String × Toml)) :
    (load_config cfg).isOk = load_config_ok cfg := by
  unfold load_config load_config_ok adviceField perPosEffective sectionOf
  cases hA : (cfg.lookup "advice").getD (Toml.table []) with
  | int n => simp [tableGet, isTableB, ebind_error, isOk_error]
  | float q => simp [tableGet, isTableB, ebind_error, isOk_error]
  | str s => simp [tableGet, isTableB, ebind_error, isOk_error]
  | bool b => simp [tableGet, isTableB, ebind_error, isOk_error]
  | list xs => simp [tableGet, isTableB, ebind_error, isOk_error]
  | table akvs =>
      simp only [tableGet, ebind_ok]
      cases hL : (cfg.lookup "league").getD (Toml.table []) with
      | int n => simp [subscriptKey, isTableB, ebind_error, isOk_error]
      | float q => simp [subscriptKey, isTableB, ebind_error, isOk_error]
      | str s => simp [subscriptKey, isTableB, ebind_error, isOk_error]
      | bool b => simp [subscriptKey, isTableB, ebind_error, isOk_error]
      | list xs => simp [subscriptKey, isTableB, ebind_error, isOk_error]
      | table lkvs =>
          simp only [subscriptKey]
          cases hlk : lkvs.lookup "league_id" with
          | none => simp [isTableB, ebind_error, isOk_error]
          | some lidV =>
              simp only [ebind_ok]
              cases hpi : pyInt lidV with
              | error e =>
                  have h2 := pyInt_isOk lidV
                  rw [hpi] at h2
                  simp only [isOk_error] at h2
                  simp [isTableB, ebind_error, isOk_error, ← h2]
              | ok lid =>
                  have hlid2 := pyInt_isOk lidV
                  rw [hpi] at hlid2
                  simp only [isOk_ok] at hlid2
                  simp only [ebind_ok]
                  cases hsyk : lkvs.lookup "season_year" with
                  | none => simp [isTableB, ebind_error, isOk_error, ← hlid2]
                  | some syV =>
                      simp only [ebind_ok]
                      cases hpy : pyInt syV with
                      | error e =>
                          have h2 := pyInt_isOk syV
                          rw [hpy] at h2
                          simp only [isOk_error] at h2
                          simp [isTableB, ebind_error, isOk_error, ← hlid2, ← h2]
                      | ok sy =>
                          have hsy2 := pyInt_isOk syV
                          rw [hpy] at hsy2
                          simp only [isOk_ok] at hsy2
                          simp only [ebind_ok, tableGetOpt]
                          cases hAu : (cfg.lookup "auth").getD (Toml.table []) with
                          | int n => simp [isTableB, ebind_error, isOk_error, ← hlid2, ← hsy2]
                          | float q => simp [isTableB, ebind_error, isOk_error, ← hlid2, ← hsy2]
                          | str s => simp [isTableB, ebind_error, isOk_error, ← hlid2, ← hsy2]
                          | bool b => simp [isTableB, ebind_error, isOk_error, ← hlid2, ← hsy2]
                          | list xs => simp [isTableB, ebind_error, isOk_error, ← hlid2, ← hsy2]
                          | table aukvs =>
                              simp only [ebind_ok]
                              cases hOut : (cfg.lookup "output").getD (Toml.table []) with
                              | int n => simp [isTableB, ebind_error, isOk_error, ← hlid2, ← hsy2]
                              | float q => simp [isTableB, ebind_error, isOk_error, ← hlid2, ← hsy2]
                              | str s => simp [isTableB, ebind_error, isOk_error, ← hlid2, ← hsy2]
                              | bool b => simp [isTableB, ebind_error, isOk_error, ← hlid2, ← hsy2]
                              | list xs => simp [isTableB, ebind_error, isOk_error, ← hlid2, ← hsy2]
                              | table okvs =>
                                  simp only [ebind_ok]
                                  cases hsst : _as_float_scalar
                                      ((List.lookup "start_sit_threshold" akvs).getD
                                        (Toml.float (qTen 15))) with
                                  | error e =>
                                      have h2 := afs_isOk ((List.lookup "start_sit_threshold" akvs).getD (Toml.float (qTen 15)))
                                      rw [hsst] at h2
                                      simp only [isOk_error] at h2
                                      simp [isTableB, ebind_error, isOk_error, ← hlid2, ← hsy2, ← h2]
                                  | ok th =>
                                      have hsst2 := afs_isOk ((List.lookup "start_sit_threshold" akvs).getD (Toml.float (qTen 15)))
                                      rw [hsst] at hsst2
                                      simp only [isOk_ok] at hsst2
                                      simp only [ebind_ok]
                                      cases hpp : (if truthy ((List.lookup "per_position_thresholds" akvs).getD (Toml.table [])) = true then ((List.lookup "per_position_thresholds" akvs).getD (Toml.table [])) else Toml.table []) with
                                      | int n => simp [isTableB, ebind_error, isOk_error, ← hlid2, ← hsy2, ← hsst2]
                                      | float q => simp [isTableB, ebind_error, isOk_error, ← hlid2, ← hsy2, ← hsst2]
                                      | str s => simp [isTableB, ebind_error, isOk_error, ← hlid2, ← hsy2, ← hsst2]
                                      | bool b => simp [isTableB, ebind_error, isOk_error, ← hlid2, ← hsy2, ← hsst2]
                                      | list xs => simp [isTableB, ebind_error, isOk_error, ← hlid2, ← hsy2, ← hsst2]
                                      | table pkvs =>
                                          dsimp only
                                          cases hm : (pkvs.mapM
                                              (fun (kv : String × Toml) => _as_float_scalar kv.2 >>= fun q =>
                                                pure (kv.1, q)) : Except String (List (String × Q))) with
                                          | error e =>
                                              have h2 := mapM_afs_isOk pkvs
                                              rw [hm] at h2
                                              simp only [isOk_error] at h2
                                              simp [isTableB, ebind_error, isOk_error, ← hlid2, ← hsy2, ← hsst2, ← h2]
                                          | ok per_pos =>
                                              have hall2 := mapM_afs_isOk pkvs
                                              rw [hm] at hall2
                                              simp only [isOk_ok] at hall2
                                              simp only [hm, ebind_ok]
                                              cases hit : pyIterElems ((List.lookup "advice_lock_positions" akvs).getD (Toml.list [])) with
                                              | error e =>
                                                  have h2 := iter_isOk ((List.lookup "advice_lock_positions" akvs).getD (Toml.list []))
                                                  rw [hit] at h2
                                                  simp only [isOk_error] at h2
                                                  simp [isTableB, hm, hit, ebind_ok, ebind_error, isOk_error, ← hlid2, ← hsy2, ← hsst2, ← hall2, ← h2]
                                              | ok lockElems =>
                                                  have hit2 := iter_isOk ((List.lookup "advice_lock_positions" akvs).getD (Toml.list []))
                                                  rw [hit] at hit2
                                                  simp only [isOk_ok] at hit2
                                                  simp only [hit, ebind_ok]
                                                  cases hpool : pyInt ((List.lookup "free_agent_pool_size" akvs).getD (Toml.int 50)) with
                                                  | error e =>
                                                      have h2 := pyInt_isOk ((List.lookup "free_agent_pool_size" akvs).getD (Toml.int 50))
                                                      rw [hpool] at h2
                                                      simp only [isOk_error] at h2
                                                      simp [isTableB, hm, hit, hpool, ebind_ok, ebind_error, isOk_error, ← hlid2, ← hsy2, ← hsst2, ← hall2, ← hit2, ← h2]
                                                  | ok pool =>
                                                      have hpool2 := pyInt_isOk ((List.lookup "free_agent_pool_size" akvs).getD (Toml.int 50))
                                                      rw [hpool] at hpool2
                                                      simp only [isOk_ok] at hpool2
                                                      simp only [hpool, ebind_ok]
                                                      cases hposi : pyIterElems ((List.lookup "positions" akvs).getD defaultPositions) with
                                                      | error e =>
                                                          have h2 := iter_isOk ((List.lookup "positions" akvs).getD defaultPositions)
                                                          rw [hposi] at h2
                                                          simp only [isOk_error] at h2
                                                          simp [isTableB, hm, hit, hpool, hposi, emap_error, ebind_ok, ebind_error, isOk_error, ← hlid2, ← hsy2, ← hsst2, ← hall2, ← hit2, ← hpool2, ← h2]
                                                      | ok posElems =>
                                                          have hposi2 := iter_isOk ((List.lookup "positions" akvs).getD defaultPositions)
                                                          rw [hposi] at hposi2
                                                          simp only [isOk_ok] at hposi2
                                                          simp [isTableB, hm, hit, hpool, hposi, emap_ok, ebind_ok, epure, isOk_ok, ← hlid2, ← hsy2, ← hsst2, ← hall2, ← hit2, ← hpool2, ← hposi2]

/-- Counterexample to C5: a configuration whose `league_id` is the string
"abc" satisfies the claim's failure condition vacuously (no required key is
missing and all thresholds are numbers), yet `load_config` fails, because
`int("abc")` raises. -/
theorem c5_counterexample :
    (load_config cexToml).isOk = false ∧ claim_config_ok cexToml = true := by
  decide
